import Mathlib

/-!
Verification of the attachment-resolution and MIME-assembly core of
`gmail_mcp_server.py` (the `_safe_read_file`, `_resolve_attachment_path`
and `build_raw_email` functions), as a shallow embedding in Lean.

Python strings are embedded as `List Char`; byte strings as `List Nat`
(one `Nat` per byte).  The POSIX path functions (`os.path.abspath`,
`os.path.normpath`, `os.path.join`, `os.path.isabs`, `os.path.basename`)
and the CPython `base64` / `binascii` decoding loop are modelled
operation-for-operation from their reference implementations, since the
repository code calls them directly.  The environment (`os.getenv`) is a
function from variable names to optional values, the filesystem is a
function from (canonical) path strings to optional file data.
-/

set_option maxRecDepth 10000

deriving instance DecidableEq for Except

/-- Python strings are embedded as lists of characters. -/
abbrev Str := List Char

/-- The separator `os.sep` on POSIX: the path separator character. -/
def sepC : Char := '/'

/-! ## POSIX path model (`posixpath`, as used by `os.path` on the server) -/

/-- Python `s.split('/')` (splitting on every separator occurrence;
`"".split('/') == [""]`, adjacent separators yield empty chunks). -/
def splitSep : Str → List Str
  | [] => [[]]
  | c :: rest =>
    if c = sepC then [] :: splitSep rest
    else
      match splitSep rest with
      | [] => [[c]]
      | h :: t => (c :: h) :: t

/-- The number of initial slashes retained by `posixpath.normpath`:
one slash normally, two when the path starts with exactly two slashes
(POSIX allows an implementation-defined `//` root), zero for relative
paths. -/
def initialSlashes (s : Str) : Nat :=
  if s.take 1 = [sepC] then
    if s.take 2 = [sepC, sepC] ∧ s.take 3 ≠ [sepC, sepC, sepC] then 2 else 1
  else 0

/-- The component-processing loop of `posixpath.normpath`: drop empty and
`.` components, and resolve `..` against the accumulated components
(keeping it only for relative paths that have nothing to pop, or when the
previous kept component is itself `..`). -/
def normComps (isAbsolute : Bool) : List Str → List Str → List Str
  | [], acc => acc
  | comp :: rest, acc =>
    if comp = [] ∨ comp = ['.'] then normComps isAbsolute rest acc
    else if comp ≠ ['.', '.'] ∨ (isAbsolute = false ∧ acc = []) ∨
        acc.getLast? = some ['.', '.'] then
      normComps isAbsolute rest (acc ++ [comp])
    else normComps isAbsolute rest acc.dropLast

/-- The structured result of path normalisation: a number of leading
slashes and the list of remaining components. -/
structure NPath where
  slashes : Nat
  comps : List Str
deriving DecidableEq

/-- Python `posixpath.normpath`, split into its structural content. -/
def normStruct (s : Str) : NPath :=
  ⟨initialSlashes s, normComps (initialSlashes s != 0) (splitSep s) []⟩

/-- Join components with `/` (the `'/'.join(comps)` step of `normpath`). -/
def interS : List Str → Str
  | [] => []
  | [c] => c
  | c :: cs => c ++ sepC :: interS cs

/-- Render a structured path back to a string; `normpath` returns `"."`
for an empty result. -/
def renderN (n : NPath) : Str :=
  let r := List.replicate n.slashes sepC ++ interS n.comps
  if r = [] then ['.'] else r

/-- Python `posixpath.normpath`. -/
def normpath (s : Str) : Str := renderN (normStruct s)

/-- Python `posixpath.isabs`: a path is absolute iff it starts with `/`. -/
def isabs (s : Str) : Bool := s.take 1 = [sepC]

/-- Python `posixpath.join` for two arguments: an absolute second argument
replaces the first; otherwise the parts are joined, inserting a `/`
unless the first part is empty or already ends in `/`. -/
def joinP (a b : Str) : Str :=
  if isabs b then b
  else if a = [] ∨ a.getLast? = some sepC then a ++ b
  else a ++ sepC :: b

/-- Python `os.path.abspath`: normalise, after joining relative paths onto the
current working directory (`cwd` is passed explicitly, standing for
`os.getcwd()`). -/
def abspath (cwd s : Str) : Str :=
  if isabs s then normpath s else normpath (joinP cwd s)

/-- The structured form of `abspath` (same computation before rendering to
a string). -/
def absStruct (cwd s : Str) : NPath :=
  if isabs s then normStruct s else normStruct (joinP cwd s)

/-- Python `posixpath.basename`: the suffix after the last `/` (empty if the path
ends in `/`). -/
def basename (p : Str) : Str :=
  (p.reverse.takeWhile (fun c => c ≠ sepC)).reverse

/-! ## CPython `base64` / `binascii` model -/

/-- The base64 data-alphabet table (`table_a2b_base64`): the 6-bit value
of a data character, `none` for every other character (including `=`). -/
def b64charIndex (c : Char) : Option Nat :=
  if 65 ≤ c.toNat ∧ c.toNat ≤ 90 then some (c.toNat - 65)
  else if 97 ≤ c.toNat ∧ c.toNat ≤ 122 then some (c.toNat - 71)
  else if 48 ≤ c.toNat ∧ c.toNat ≤ 57 then some (c.toNat + 4)
  else if c.toNat = 43 then some 62
  else if c.toNat = 47 then some 63
  else none

/-- Decoding errors of `binascii.a2b_base64` (both are `binascii.Error`,
a subclass of `ValueError`, in Python) plus the ASCII pre-check error of
`base64.b64decode` on `str` input. -/
inductive B64Error where
  | invalidLength
  | incorrectPadding
  | nonAscii
deriving DecidableEq

/-- The decoding loop of `binascii.a2b_base64` in non-strict mode
(CPython `Modules/binascii.c`): characters outside the alphabet are
discarded; `=` at quad position ≥ 2 counts padding and *ends decoding*
once the quad is completed by padding; at the end of input a dangling
quad position of 1 is an invalid-length error and of 2 or 3 an
incorrect-padding error. -/
def a2bBase64Loop : List Char → Nat → Nat → Nat → List Nat →
    Except B64Error (List Nat)
  | [], quadPos, _, _, acc =>
    if quadPos = 0 then .ok acc
    else if quadPos = 1 then .error .invalidLength
    else .error .incorrectPadding
  | c :: rest, quadPos, leftchar, pads, acc =>
    if c = '=' then
      if 2 ≤ quadPos then
        if 4 ≤ quadPos + (pads + 1) then .ok acc
        else a2bBase64Loop rest quadPos leftchar (pads + 1) acc
      else a2bBase64Loop rest quadPos leftchar pads acc
    else
      match b64charIndex c with
      | none => a2bBase64Loop rest quadPos leftchar pads acc
      | some v =>
        match quadPos with
        | 0 => a2bBase64Loop rest 1 v 0 acc
        | 1 => a2bBase64Loop rest 2 (v % 16) 0 (acc ++ [leftchar * 4 + v / 16])
        | 2 => a2bBase64Loop rest 3 (v % 4) 0 (acc ++ [leftchar * 16 + v / 4])
        | _ => a2bBase64Loop rest 0 0 0 (acc ++ [leftchar * 64 + v])

/-- Python `base64.b64decode` on a `str` argument with default
`validate=False`: the string must be pure ASCII (else `ValueError`), then
the non-strict `binascii.a2b_base64` loop runs. -/
def pyB64Decode (s : Str) : Except B64Error (List Nat) :=
  if s.all (fun c => c.toNat < 128) then a2bBase64Loop s 0 0 0 []
  else .error .nonAscii

/-- One base64 output character from a 6-bit value. -/
def b64char (n : Nat) : Char :=
  if n < 26 then Char.ofNat (65 + n)
  else if n < 52 then Char.ofNat (97 + (n - 26))
  else if n < 62 then Char.ofNat (48 + (n - 52))
  else if n = 62 then '+'
  else '/'

/-- Standard base64 encoding of a byte list (no line breaks), as in
`binascii.b2a_base64` / `base64.b64encode`. -/
def b64encodeGroups : List Nat → Str
  | [] => []
  | [a] => [b64char (a / 4), b64char (a % 4 * 16), '=', '=']
  | [a, b] => [b64char (a / 4), b64char (a % 4 * 16 + b / 16),
      b64char (b % 16 * 4), '=']
  | a :: b :: c :: rest =>
    b64char (a / 4) :: b64char (a % 4 * 16 + b / 16) ::
      b64char (b % 16 * 4 + c / 64) :: b64char (c % 64) ::
      b64encodeGroups rest

/-- Python `base64.urlsafe_b64encode(..).decode("utf-8")`: standard base64 with
`+` and `/` replaced by `-` and `_`. -/
def urlsafeB64Encode (bs : List Nat) : Str :=
  (b64encodeGroups bs).map
    (fun c => if c = '+' then '-' else if c = '/' then '_' else c)

/-- Python `base64.urlsafe_b64decode`: translate `-` and `_` back, then decode. -/
def urlsafeB64Decode (s : Str) : Except B64Error (List Nat) :=
  pyB64Decode (s.map
    (fun c => if c = '-' then '+' else if c = '_' then '/' else c))

/-- The chunking loop of `base64.encodebytes` (used by
`email.encoders.encode_base64` and, with identical 57-byte/76-char
parameters, by `email.base64mime.body_encode`): encode 57-byte chunks,
each followed by a newline.  The fuel argument bounds the recursion; the
wrapper supplies enough. -/
def encodebytesAux : Nat → List Nat → Str
  | 0, _ => []
  | fuel + 1, bs =>
    if bs = [] then []
    else b64encodeGroups (bs.take 57) ++ '\n' :: encodebytesAux fuel (bs.drop 57)

/-- Python `base64.encodebytes`, producing a string. -/
def encodebytes (bs : List Nat) : Str := encodebytesAux (bs.length + 1) bs

/-- Standard well-formed base64 (the spec-level notion of a non-malformed
base64 string): length a multiple of four, at most two trailing `=`
padding characters, all other characters from the data alphabet. -/
def b64Wellformed (s : Str) : Bool :=
  let t := (s.reverse.dropWhile (fun c => c = '=')).reverse
  s.length % 4 = 0 ∧ s.length - t.length ≤ 2 ∧
    t.all (fun c => (b64charIndex c).isSome)

/-! ## UTF-8 encoding (for the body text: `MIMEText(body, ..., "utf-8")`) -/

/-- UTF-8 encoding of one code point. -/
def utf8Char (n : Nat) : List Nat :=
  if n < 0x80 then [n]
  else if n < 0x800 then [0xC0 + n / 64, 0x80 + n % 64]
  else if n < 0x10000 then
    [0xE0 + n / 4096, 0x80 + n / 64 % 64, 0x80 + n % 64]
  else [0xF0 + n / 262144, 0x80 + n / 4096 % 64, 0x80 + n / 64 % 64,
    0x80 + n % 64]

/-- UTF-8 encoding of a string (`s.encode("utf-8")`). -/
def utf8Encode (s : Str) : List Nat := s.flatMap (fun c => utf8Char c.toNat)

/-- ASCII bytes of a string (`s.encode("ascii")` for the ASCII header and
payload text produced by the generator). -/
def strBytes (s : Str) : List Nat := s.map Char.toNat

/-! ## Environment, filesystem, and error model -/

/-- Python `os.getenv`: environment variables are an optional-value map. -/
def EnvT := String → Option Str

/-- A file on disk, as seen by the two system calls the code performs:
`os.path.getsize` (the `size` field) and `open(..).read()` (the
`content` field). -/
structure FileData where
  size : Nat
  content : List Nat
deriving DecidableEq

/-- The filesystem: canonical path → optional file. -/
def Fs := Str → Option FileData

/-- The failure taxonomy of the attachment core.  Every constructor
corresponds to one `raise` site (all `ValueError` in the source, plus
propagated `OSError` / `binascii.Error`):
`pathEscape` = "Attachment path not allowed (outside base dir)",
`attachmentTooLarge` = "Attachment too large",
`conflictingSource` = "provide either content_base64 OR path, not both",
`missingFilename` = "attachment with content_base64 requires filename",
`missingSource` = "attachment requires content_base64 or path",
`invalidBase64` = propagated `binascii.Error` from `base64.b64decode`,
`attachmentRead` = propagated filesystem `OSError`,
`invalidMaxMb` = propagated `ValueError` from `int(os.getenv(..))`. -/
inductive PyError where
  | pathEscape
  | attachmentTooLarge
  | conflictingSource
  | missingFilename
  | missingSource
  | invalidBase64
  | attachmentRead
  | invalidMaxMb
deriving DecidableEq

/-- Python `int(s)` restricted to the plain-digits case (sign and
whitespace handling of `int` are not needed for the claims): `none`
models the `ValueError` raised on a non-numeric string. -/
def pyIntParse (s : Str) : Option Nat :=
  if s ≠ [] ∧ s.all Char.isDigit then
    some (s.foldl (fun n c => n * 10 + (c.toNat - 48)) 0)
  else none

/-- The limit `int(os.getenv("MAX_ATTACHMENT_MB", "20"))`. -/
def maxMbOf (env : EnvT) : Option Nat :=
  pyIntParse ((env ("MAX_ATTACHMENT_MB")).getD ('2' :: ['0']))

/-! ## `_safe_read_file` -/

/-- Function `_safe_read_file(path, base_dir)`: canonicalise the path with
`os.path.abspath`; when `base_dir` is truthy (non-empty), canonicalise it
too and require `p == b or p.startswith(b + os.sep)`, else raise the
path-escape `ValueError`; then parse the size limit from the
environment, read the file size, compare it against
`max_mb * 1024 * 1024`, and finally read and return the content. -/
def safe_read_file (env : EnvT) (cwd : Str) (fs : Fs) (path baseDir : Str) :
    Except PyError (List Nat) :=
  let p := abspath cwd path
  if baseDir ≠ [] ∧
      ¬ (p = abspath cwd baseDir ∨
        List.isPrefixOf (abspath cwd baseDir ++ [sepC]) p) then
    .error .pathEscape
  else
    match maxMbOf env with
    | none => .error .invalidMaxMb
    | some maxMb =>
      match fs p with
      | none => .error .attachmentRead
      | some f =>
        if f.size > maxMb * 1024 * 1024 then .error .attachmentTooLarge
        else .ok f.content

/-! ## `_resolve_attachment_path` -/

/-- The `os.getenv("ATTACHMENTS_BASE_DIR", "/shared")` read performed
inside `_resolve_attachment_path` (line 93 of the source). -/
def resolverBaseDir (env : EnvT) : Str :=
  (env ("ATTACHMENTS_BASE_DIR")).getD ("/shared".data)

/-- The independent `os.getenv("ATTACHMENTS_BASE_DIR", "/shared")` read
performed inside `build_raw_email` before calling `_safe_read_file`
(line 142 of the source). -/
def validatorBaseDir (env : EnvT) : Str :=
  (env ("ATTACHMENTS_BASE_DIR")).getD ("/shared".data)

/-- Function `_resolve_attachment_path(path)`: join a truthy (non-empty) relative
path under the configured base directory; absolute and empty paths are
returned unchanged.  No filesystem access happens here. -/
def resolve_attachment_path (env : EnvT) (path : Str) : Str :=
  if path ≠ [] ∧ isabs path = false then joinP (resolverBaseDir env) path
  else path

/-! ## Attachment resolution (the per-attachment body of `build_raw_email`) -/

/-- One attachment specification, as taken from the request dictionary by
`att.get(..)`: every field optional. -/
structure AttachmentSpec where
  filename : Option Str
  mime_type : Option Str
  content_base64 : Option Str
  path : Option Str
deriving DecidableEq

/-- Python truthiness of an optional string: `None` and `""` are falsy. -/
def truthy : Option Str → Bool
  | none => false
  | some s => s ≠ []

/-- The value of an optional string where the code uses it (only ever
after a truthiness check). -/
def getS : Option Str → Str
  | none => []
  | some s => s

/-- A resolved attachment: final filename, MIME type and raw bytes. -/
structure ResolvedAttachment where
  filename : Str
  mime_type : Str
  data : List Nat
deriving DecidableEq

/-- Python `mimetypes.guess_type` is an external table; concrete theorems
instantiate the `guess` parameter with this small model covering the
extensions the claims use. -/
def mimetypesGuess (filename : Str) : Option Str :=
  let ext := (filename.reverse.takeWhile (fun c => c ≠ '.')).reverse
  if filename.all (fun c => c ≠ '.') then none
  else if ext = "txt".data then some ("text/plain".data)
  else if ext = "pdf".data then some ("application/pdf".data)
  else if ext = "html".data then some ("text/html".data)
  else none

/-- The path branch of the attachment loop (source lines 130–143): resolve
the path, derive a missing filename from the resolved path's basename,
derive a missing MIME type from the filename (defaulting to
`application/octet-stream`), re-read the base directory from the
environment, and read the bytes through `_safe_read_file`. -/
def resolvePathBranch (env : EnvT) (cwd : Str) (fs : Fs)
    (guess : Str → Option Str) (filename mime_type : Option Str) (p0 : Str) :
    Except PyError ResolvedAttachment :=
  let p := resolve_attachment_path env p0
  let fn := if truthy filename = false then basename p else getS filename
  let mt := if truthy mime_type = false then
      (guess fn).getD ("application/octet-stream".data)
    else getS mime_type
  match safe_read_file env cwd fs p (validatorBaseDir env) with
  | .error e => .error e
  | .ok data => .ok ⟨fn, mt, data⟩

/-- The base64 branch of the attachment loop (source lines 146–154): a
truthy filename is required, a missing MIME type is derived from it, and
the payload is decoded with `base64.b64decode`. -/
def resolveBase64Branch (guess : Str → Option Str)
    (filename mime_type : Option Str) (c : Str) :
    Except PyError ResolvedAttachment :=
  if truthy filename = false then .error .missingFilename
  else
    let mt := if truthy mime_type = false then
        (guess (getS filename)).getD ("application/octet-stream".data)
      else getS mime_type
    match pyB64Decode c with
    | .error _ => .error .invalidBase64
    | .ok data => .ok ⟨getS filename, mt, data⟩

/-- The per-attachment decision logic of `build_raw_email` (source lines
120–157): both sources truthy is a conflict; a truthy path takes the
path branch; otherwise a truthy base64 payload takes the base64 branch;
otherwise the attachment has no source. -/
def resolveAttachment (env : EnvT) (cwd : Str) (fs : Fs)
    (guess : Str → Option Str) (att : AttachmentSpec) :
    Except PyError ResolvedAttachment :=
  if truthy att.content_base64 ∧ truthy att.path then .error .conflictingSource
  else if truthy att.path then
    resolvePathBranch env cwd fs guess att.filename att.mime_type (getS att.path)
  else if truthy att.content_base64 then
    resolveBase64Branch guess att.filename att.mime_type (getS att.content_base64)
  else .error .missingSource

/-! ## MIME message assembly and serialisation

`build_raw_email` assembles a `MIMEMultipart` and serialises it with
`msg.as_bytes()`.  The `email` package is modelled for exactly the
message shapes this code produces (compat32 policy, `\n` line
separator, headers short enough not to be folded).  The multipart
boundary, which CPython's generator draws with `random.randrange` when
the message has none (`email.generator.Generator._make_boundary`), is an
explicit `boundary` input of the model. -/

/-- One MIME part: its headers in order, and its payload text (after
`encoders.encode_base64` the stored payload is base64 text). -/
structure MimePart where
  headers : List (Str × Str)
  payload : Str
deriving DecidableEq

/-- Render one header line (`Name: value\n`). -/
def renderHeader (h : Str × Str) : Str := h.1 ++ ':' :: ' ' :: h.2 ++ ['\n']

/-- Flatten one part: headers, blank line, payload. -/
def flattenPart (p : MimePart) : Str :=
  (p.headers.map renderHeader).foldr (· ++ ·) [] ++ '\n' :: p.payload

/-- The body part: `MIMEText(body, "html" if body_format == "html" else
"plain", "utf-8")`.  With an explicit utf-8 charset the payload is
base64 transfer-encoded by the email package. -/
def mimeTextPart (body body_format : Str) : MimePart :=
  let subtype := if body_format = "html".data then "html".data else "plain".data
  ⟨[("Content-Type".data,
      "text/".data ++ subtype ++ "; charset=\"utf-8\"".data),
    ("MIME-Version".data, "1.0".data),
    ("Content-Transfer-Encoding".data, "base64".data)],
   encodebytes (utf8Encode body)⟩

/-- The split `(mime_type.split("/", 1) + ["octet-stream"])[:2]`: split at the
first slash, defaulting the subtype. -/
def splitMime (m : Str) : Str × Str :=
  let pre := m.takeWhile (fun c => c ≠ sepC)
  if pre.length = m.length then (m, "octet-stream".data)
  else (pre, m.drop (pre.length + 1))

/-- An attachment part (source lines 159–164): `MIMEBase(maintype,
subtype)`, payload set to the raw bytes, base64 transfer-encoded by
`encoders.encode_base64`, and a content-disposition naming the file. -/
def attachmentPartOf (r : ResolvedAttachment) : MimePart :=
  let ms := splitMime r.mime_type
  ⟨[("Content-Type".data, ms.1 ++ sepC :: ms.2),
    ("MIME-Version".data, "1.0".data),
    ("Content-Transfer-Encoding".data, "base64".data),
    ("Content-Disposition".data,
      "attachment; filename=\"".data ++ r.filename ++ ['"'])],
   encodebytes r.data⟩

/-- Serialise the whole multipart message, as the compat32
`BytesGenerator` does for this shape: top headers (the boundary being
injected into the Content-Type by `set_boundary` during flattening),
blank line, `--boundary` before the first part, `\n--boundary` between
parts, and a closing `\n--boundary--\n`. -/
def flattenMsg (boundary toA subject : Str) (parts : List MimePart) : Str :=
  let tops := [("Content-Type".data,
      "multipart/mixed; boundary=\"".data ++ boundary ++ ['"']),
    ("MIME-Version".data, "1.0".data),
    ("To".data, toA),
    ("Subject".data, subject)]
  (tops.map renderHeader).foldr (· ++ ·) [] ++ ['\n'] ++
    '-' :: '-' :: boundary ++ ['\n'] ++
    (match parts with
     | [] => []
     | p :: rest =>
       flattenPart p ++
         (rest.map (fun q =>
           '\n' :: '-' :: '-' :: boundary ++ ['\n'] ++ flattenPart q)).foldr
           (· ++ ·) []) ++
    '\n' :: '-' :: '-' :: boundary ++ "--".data ++ ['\n']

/-- Function `build_raw_email(to, subject, body, body_format, attachments)`:
resolve each attachment in order (aborting on the first error, as the
raised exception does), attach the body part followed by the attachment
parts, serialise, and url-safe-base64-encode the bytes. -/
def build_raw_email (env : EnvT) (cwd : Str) (fs : Fs)
    (guess : Str → Option Str) (boundary : Str)
    (toA subject body body_format : Str) (attachments : List AttachmentSpec) :
    Except PyError Str :=
  match attachments.mapM (resolveAttachment env cwd fs guess) with
  | .error e => .error e
  | .ok resolved =>
    .ok (urlsafeB64Encode (strBytes
      (flattenMsg boundary toA subject
        (mimeTextPart body body_format :: resolved.map attachmentPartOf))))

/-! ## A minimal MIME reader (the spec side of the round-trip claim)

These definitions parse the serialised message back: split on the
boundary delimiter, separate each part's headers from its payload at the
first blank line, and recognise attachment parts by their
content-disposition header. -/

/-- Split a string on every occurrence of a (non-empty) separator
substring; fuel-bounded scanning, the wrapper supplies enough fuel. -/
def splitOnSubAux (sepS : Str) : Nat → Str → Str → List Str
  | 0, acc, rest => [acc.reverse ++ rest]
  | fuel + 1, acc, rest =>
    if sepS ≠ [] ∧ List.isPrefixOf sepS rest then
      acc.reverse :: splitOnSubAux sepS fuel [] (rest.drop sepS.length)
    else
      match rest with
      | [] => [acc.reverse]
      | c :: rs => splitOnSubAux sepS fuel (c :: acc) rs

/-- Split on a substring (like Python `s.split(t)` for non-empty `t`). -/
def pySplit (sepS s : Str) : List Str := splitOnSubAux sepS (s.length + 1) [] s

/-- Whether a (non-empty) substring occurs in a string. -/
def containsSub (needle s : Str) : Bool := (pySplit needle s).length > 1

/-- The part texts of a serialised multipart message: the chunks between
boundary delimiter lines (each part chunk starts with the newline that
ended the boundary line; the closing `--` chunk is discarded). -/
def mimeParts (boundary s : Str) : List Str :=
  ((pySplit ('\n' :: '-' :: '-' :: boundary) s).drop 1).filterMap
    (fun piece =>
      match piece with
      | '\n' :: r => some r
      | _ => none)

/-- The header block of a part text (before the first blank line). -/
def partHeaders (p : Str) : Str := (pySplit ('\n' :: ['\n']) p).headD []

/-- The payload of a part text (after the first blank line). -/
def partPayload (p : Str) : Str := ((pySplit ('\n' :: ['\n']) p).drop 1).headD []

/-- A part is an attachment part iff its headers carry an `attachment`
content-disposition. -/
def isAttachmentPart (p : Str) : Bool :=
  containsSub ("Content-Disposition: attachment".data) (partHeaders p)

/-- The filename quoted in the content-disposition of a part. -/
def dispFilename (p : Str) : Option Str :=
  match (pySplit ("filename=\"".data) (partHeaders p)).drop 1 with
  | rest :: _ => some (rest.takeWhile (fun c => c ≠ '"'))
  | _ => none

/-! ## Spec-side notions -/

/-- Path `p` is a proper descendant of `b` (both in canonical structured
form): same root, and the components of `b` a strict prefix of those of
`p`. -/
def ProperDescendant (b p : NPath) : Prop :=
  b.slashes = p.slashes ∧ b.comps <+: p.comps ∧ b.comps ≠ p.comps

instance (b p : NPath) : Decidable (ProperDescendant b p) := by
  unfold ProperDescendant; infer_instance

/-- The result of a read is the path-escape failure. -/
def isPathEscape {α : Type} (r : Except PyError α) : Prop :=
  r = .error .pathEscape

instance {α : Type} [DecidableEq α] (r : Except PyError α) :
    Decidable (isPathEscape r) := by
  unfold isPathEscape; infer_instance

/-- Empty-string fields normalised to absent fields. -/
def normF : Option Str → Option Str
  | some [] => none
  | o => o

/-- An attachment spec with every empty-string field replaced by an
absent field. -/
def normSpec (a : AttachmentSpec) : AttachmentSpec :=
  ⟨normF a.filename, normF a.mime_type, normF a.content_base64, normF a.path⟩

/-- A canonicalised path structure is well-formed: an absolute root (one
or two leading slashes) and components that are non-empty and free of
the separator. -/
def WfN (n : NPath) : Prop :=
  (n.slashes = 1 ∨ n.slashes = 2) ∧ ∀ c ∈ n.comps, c ≠ [] ∧ sepC ∉ c

/-! ## Concrete fixtures for witnesses and counterexamples -/

/-- An empty environment (every variable unset, so defaults apply). -/
def emptyEnv : EnvT := fun _ => none

/-- An empty filesystem. -/
def emptyFs : Fs := fun _ => none

/-- A MIME-type guesser that knows nothing (forcing the
`application/octet-stream` default). -/
def noGuess : Str → Option Str := fun _ => none

/-- An environment with a single variable set. -/
def envWith (k : String) (v : Str) : EnvT :=
  fun q => if q = k then some v else none

/-- A filesystem with a single file. -/
def fsWith (p : Str) (f : FileData) : Fs :=
  fun q => if q = p then some f else none

/-! ## Small lemmas about empty-string normalisation -/

theorem truthy_normF (o : Option Str) : truthy (normF o) = truthy o := by
  match o with
  | none => rfl
  | some [] => rfl
  | some (_ :: _) => rfl

theorem getS_normF (o : Option Str) : getS (normF o) = getS o := by
  match o with
  | none => rfl
  | some [] => rfl
  | some (_ :: _) => rfl

theorem resolvePathBranch_normF (env : EnvT) (cwd : Str) (fs : Fs)
    (guess : Str → Option Str) (f m : Option Str) (p0 : Str) :
    resolvePathBranch env cwd fs guess (normF f) (normF m) p0 =
      resolvePathBranch env cwd fs guess f m p0 := by
  simp only [resolvePathBranch, truthy_normF, getS_normF]

theorem resolveBase64Branch_normF (guess : Str → Option Str)
    (f m : Option Str) (c : Str) :
    resolveBase64Branch guess (normF f) (normF m) c =
      resolveBase64Branch guess f m c := by
  simp only [resolveBase64Branch, truthy_normF, getS_normF]

/-! ## Claim C3: decision-policy order of attachment resolution -/

/-- C3: attachment resolution evaluates its decision policy in order:
both sources truthy fails with the conflicting-source error before any
other check; only `path` takes the path branch; only `content_base64`
without a filename fails with the missing-filename error; neither source
fails with the missing-source error. -/
theorem C3_decision_order (env : EnvT) (cwd : Str) (fs : Fs)
    (guess : Str → Option Str) (att : AttachmentSpec) :
    (truthy att.content_base64 = true → truthy att.path = true →
      resolveAttachment env cwd fs guess att = .error .conflictingSource) ∧
    (truthy att.path = true → truthy att.content_base64 = false →
      resolveAttachment env cwd fs guess att =
        resolvePathBranch env cwd fs guess att.filename att.mime_type
          (getS att.path)) ∧
    (truthy att.content_base64 = true → truthy att.path = false →
      truthy att.filename = false →
      resolveAttachment env cwd fs guess att = .error .missingFilename) ∧
    (truthy att.content_base64 = false → truthy att.path = false →
      resolveAttachment env cwd fs guess att = .error .missingSource) := by
  refine ⟨fun hc hp => ?_, fun hp hc => ?_, fun hc hp hf => ?_, fun hc hp => ?_⟩ <;>
    simp [resolveAttachment, resolveBase64Branch, hc, hp, *]

/-- Witness for C3 at concrete attachments: a conflicting spec, a
path-only spec, a filename-less base64 spec and an empty spec. -/
theorem C3_decision_order_witness :
    resolveAttachment emptyEnv ("/".data) emptyFs noGuess
        ⟨some ("a.txt".data), none, some ("aGk=".data), some ("x".data)⟩ =
      .error .conflictingSource ∧
    resolveAttachment emptyEnv ("/".data) emptyFs noGuess
        ⟨none, none, none, some ("x".data)⟩ =
      resolvePathBranch emptyEnv ("/".data) emptyFs noGuess none none
        ("x".data) ∧
    resolveAttachment emptyEnv ("/".data) emptyFs noGuess
        ⟨none, none, some ("aGk=".data), none⟩ = .error .missingFilename ∧
    resolveAttachment emptyEnv ("/".data) emptyFs noGuess
        ⟨some ("a.txt".data), none, none, none⟩ = .error .missingSource :=
  ⟨(C3_decision_order emptyEnv ("/".data) emptyFs noGuess _).1
      (by decide) (by decide),
   (C3_decision_order emptyEnv ("/".data) emptyFs noGuess _).2.1
      (by decide) (by decide),
   (C3_decision_order emptyEnv ("/".data) emptyFs noGuess _).2.2.1
      (by decide) (by decide) (by decide),
   (C3_decision_order emptyEnv ("/".data) emptyFs noGuess _).2.2.2
      (by decide) (by decide)⟩

/-! ## Claim C4: one sandbox root for resolution and validation -/

/-- The path branch as the spec words it: a single explicit base
directory used both for joining the relative path and for gating the
read. -/
def resolvePathBranchSingleBase (base : Str) (env : EnvT) (cwd : Str)
    (fs : Fs) (guess : Str → Option Str) (filename mime_type : Option Str)
    (p0 : Str) : Except PyError ResolvedAttachment :=
  let p := if p0 ≠ [] ∧ isabs p0 = false then joinP base p0 else p0
  let fn := if truthy filename = false then basename p else getS filename
  let mt := if truthy mime_type = false then
      (guess fn).getD ("application/octet-stream".data)
    else getS mime_type
  match safe_read_file env cwd fs p base with
  | .error e => .error e
  | .ok data => .ok ⟨fn, mt, data⟩

/-- C4: the base directory used to join a relative attachment path
(read inside `_resolve_attachment_path`) and the base directory passed
to the sandboxed read (read independently inside `build_raw_email`) are
the same configuration value for any fixed environment, so the whole
path branch equals the single-root formulation rooted at that value. -/
theorem C4_single_base_dir :
    (∀ env : EnvT, resolverBaseDir env = validatorBaseDir env) ∧
    (∀ (env : EnvT) (cwd : Str) (fs : Fs) (guess : Str → Option Str)
        (filename mime_type : Option Str) (p0 : Str),
      resolvePathBranch env cwd fs guess filename mime_type p0 =
        resolvePathBranchSingleBase (resolverBaseDir env) env cwd fs guess
          filename mime_type p0) := by
  refine ⟨fun _ => rfl, fun env cwd fs guess filename mime_type p0 => ?_⟩
  simp only [resolvePathBranch, resolvePathBranchSingleBase,
    resolve_attachment_path, validatorBaseDir, resolverBaseDir]

/-! ## Claim C10: empty-string fields behave as absent fields -/

/-- C10: an empty-string field is treated throughout resolution exactly
like an absent field (resolution of any spec equals resolution of its
normalised spec), and in particular: an empty path with a base64 source
takes the base64 branch without a conflict, an empty-string sole source
is a missing source, an empty-string filename on a base64 attachment is
a missing filename, and `_resolve_attachment_path` returns the empty
path unchanged. -/
theorem C10_emptyString_as_absent :
    (∀ (env : EnvT) (cwd : Str) (fs : Fs) (guess : Str → Option Str)
        (att : AttachmentSpec),
      resolveAttachment env cwd fs guess att =
        resolveAttachment env cwd fs guess (normSpec att)) ∧
    (∀ env : EnvT, resolve_attachment_path env [] = []) ∧
    resolveAttachment emptyEnv ("/".data) emptyFs noGuess
        ⟨some ("a.txt".data), none, some ("aGk=".data), some []⟩ =
      resolveBase64Branch noGuess (some ("a.txt".data)) none ("aGk=".data) ∧
    resolveAttachment emptyEnv ("/".data) emptyFs noGuess
        ⟨none, none, some [], none⟩ = .error .missingSource ∧
    resolveAttachment emptyEnv ("/".data) emptyFs noGuess
        ⟨none, none, none, some []⟩ = .error .missingSource ∧
    resolveAttachment emptyEnv ("/".data) emptyFs noGuess
        ⟨some [], none, some ("aGk=".data), none⟩ = .error .missingFilename := by
  refine ⟨fun env cwd fs guess att => ?_, fun _ => rfl, by decide, by decide,
    by decide, by decide⟩
  simp only [resolveAttachment, normSpec, truthy_normF, getS_normF,
    resolvePathBranch_normF, resolveBase64Branch_normF]

/-! ## Claim C6: PathResolver behaviour (corrected: the empty path is
returned unchanged rather than joined) -/

/-- C6 counterexample: the empty string is not absolute, yet
`_resolve_attachment_path` returns it unchanged instead of joining it
under the base directory (Python's truthiness test `if path and ...`
skips the join). -/
theorem C6_empty_path_counterexample :
    isabs [] = false ∧
    resolve_attachment_path emptyEnv [] = [] ∧
    resolve_attachment_path emptyEnv [] ≠ joinP ("/shared".data) [] := by
  decide

/-- C6 (amended): `_resolve_attachment_path` returns absolute paths
unchanged, joins every *non-empty* non-absolute path under the
configured base directory, returns the empty path unchanged, and the
base directory is `/shared` by default and the value of
`ATTACHMENTS_BASE_DIR` when set. -/
theorem C6_path_resolution (env : EnvT) (path : Str) :
    (isabs path = true → resolve_attachment_path env path = path) ∧
    (path ≠ [] → isabs path = false →
      resolve_attachment_path env path = joinP (resolverBaseDir env) path) ∧
    (path = [] → resolve_attachment_path env path = path) ∧
    resolverBaseDir emptyEnv = "/shared".data ∧
    (∀ v : Str, resolverBaseDir (envWith ("ATTACHMENTS_BASE_DIR") v) = v) := by
  refine ⟨fun h => ?_, fun hne h => ?_, fun h => ?_, rfl, fun v => rfl⟩
  · simp [resolve_attachment_path, h]
  · simp [resolve_attachment_path, h, hne]
  · simp [resolve_attachment_path, h]

/-- Witness for C6 at concrete inputs: an absolute path, a relative
path, and the empty path. -/
theorem C6_path_resolution_witness :
    resolve_attachment_path emptyEnv ("/abs/p.txt".data) = "/abs/p.txt".data ∧
    resolve_attachment_path emptyEnv ("out/f.pptx".data) =
      joinP ("/shared".data) ("out/f.pptx".data) ∧
    resolve_attachment_path emptyEnv [] = [] :=
  ⟨(C6_path_resolution emptyEnv _).1 (by decide),
   by
    have h := (C6_path_resolution emptyEnv ("out/f.pptx".data)).2.1
      (by decide) (by decide)
    simpa using h,
   (C6_path_resolution emptyEnv _).2.2.1 rfl⟩

/-! ## Claim C9: the containment test is not a naive string-prefix test
(corrected: an empty base directory disables the sandbox entirely) -/

/-- C9 counterexample: with an *empty* base directory the condition of
the claim can hold (the canonical path extends the canonical base
without a separator boundary) while the read succeeds, because
`if base_dir:` skips the containment check for a falsy base dir. -/
theorem C9_empty_base_counterexample :
    List.isPrefixOf (abspath ("/shared".data) [])
        (abspath ("/shared".data) ("/sharedevil/f.txt".data)) = true ∧
    abspath ("/shared".data) ("/sharedevil/f.txt".data) ≠
      abspath ("/shared".data) [] ∧
    List.isPrefixOf (abspath ("/shared".data) [] ++ [sepC])
        (abspath ("/shared".data) ("/sharedevil/f.txt".data)) = false ∧
    safe_read_file emptyEnv ("/shared".data)
        (fsWith ("/sharedevil/f.txt".data) ⟨3, [1, 2, 3]⟩)
        ("/sharedevil/f.txt".data) [] = .ok [1, 2, 3] := by
  decide

/-- C9 (amended): for every *non-empty* base directory, whenever the
canonical path extends the canonical base directory as a string without
a separator boundary (prefix, not equal, and not a prefix once the
separator is appended), the read fails with the path-escape error —
descent is tested against the base directory followed by `os.sep`, not
by bare string prefix. -/
theorem C9_no_naive_prefix (env : EnvT) (cwd : Str) (fs : Fs)
    (path baseDir : Str) (hb : baseDir ≠ [])
    (hpre : List.isPrefixOf (abspath cwd baseDir) (abspath cwd path) = true)
    (hne : abspath cwd path ≠ abspath cwd baseDir)
    (hnb : List.isPrefixOf (abspath cwd baseDir ++ [sepC])
      (abspath cwd path) = false) :
    safe_read_file env cwd fs path baseDir = .error .pathEscape := by
  have : ¬ (abspath cwd path = abspath cwd baseDir ∨
      List.isPrefixOf (abspath cwd baseDir ++ [sepC]) (abspath cwd path)) := by
    rintro (h | h)
    · exact hne h
    · rw [hnb] at h; exact Bool.false_ne_true h
  simp only [safe_read_file, if_pos (And.intro hb this)]

/-- Witness for C9: `/sharedevil/f.txt` against base `/shared` is
rejected even though `/shared` is a bare string prefix of it. -/
theorem C9_no_naive_prefix_witness :
    safe_read_file emptyEnv ("/".data) emptyFs ("/sharedevil/f.txt".data)
      ("/shared".data) = .error .pathEscape :=
  C9_no_naive_prefix emptyEnv ("/".data) emptyFs ("/sharedevil/f.txt".data)
    ("/shared".data) (by decide) (by decide) (by decide) (by decide)

/-! ## Claim C7: determinism of message building (corrected: the
serialisation draws a random multipart boundary) -/

/-- C7 counterexample: two runs on the identical request, environment
and filesystem, differing only in the boundary that
`email.generator`'s `_make_boundary` draws from `random.randrange`
during `msg.as_bytes()`, produce different encoded messages. -/
theorem C7_random_boundary_counterexample :
    build_raw_email emptyEnv ("/".data) emptyFs noGuess
        ("===============1111111111==".data) ("a@example.com".data)
        ("Hi".data) ("hi".data) ("plain".data) [] ≠
      build_raw_email emptyEnv ("/".data) emptyFs noGuess
        ("===============2222222222==".data) ("a@example.com".data)
        ("Hi".data) ("hi".data) ("plain".data) [] := by
  decide

/-- C7 (amended): message building is deterministic once the generated
MIME boundary is fixed along with the inputs, environment and
filesystem: the output is a function of exactly these, with no further
source of nondeterminism in the logic. -/
theorem C7_deterministic_given_boundary (env env' : EnvT) (cwd cwd' : Str)
    (fs fs' : Fs) (guess guess' : Str → Option Str) (boundary boundary' : Str)
    (toA toA' subject subject' body body' fmt fmt' : Str)
    (atts atts' : List AttachmentSpec)
    (h1 : env = env') (h2 : cwd = cwd') (h3 : fs = fs') (h4 : guess = guess')
    (h5 : boundary = boundary') (h6 : toA = toA') (h7 : subject = subject')
    (h8 : body = body') (h9 : fmt = fmt') (h10 : atts = atts') :
    build_raw_email env cwd fs guess boundary toA subject body fmt atts =
      build_raw_email env' cwd' fs' guess' boundary' toA' subject' body' fmt'
        atts' := by
  subst h1 h2 h3 h4 h5 h6 h7 h8 h9 h10; rfl

/-- Witness for C7: two textually separate but equal invocations agree. -/
theorem C7_deterministic_witness :
    build_raw_email emptyEnv ("/".data) emptyFs noGuess
        ("===============1111111111==".data) ("a@example.com".data)
        ("Hi".data) ("hi".data) ("plain".data) [] =
      build_raw_email emptyEnv ("/".data) emptyFs noGuess
        ("===============1111111111==".data) ("a@example.com".data)
        ("Hi".data) ("hi".data) ("plain".data) [] :=
  C7_deterministic_given_boundary emptyEnv emptyEnv ("/".data) ("/".data)
    emptyFs emptyFs noGuess noGuess _ _ _ _ _ _ _ _ _ _ [] []
    rfl rfl rfl rfl rfl rfl rfl rfl rfl rfl

/-! ## Claim C2: size limit behaviour of the sandboxed read -/

/-- The containment check of `_safe_read_file` passes (base dir falsy,
or canonical path equal to or under the canonical base). -/
def sandboxPasses (cwd path baseDir : Str) : Prop :=
  baseDir = [] ∨ abspath cwd path = abspath cwd baseDir ∨
    List.isPrefixOf (abspath cwd baseDir ++ [sepC]) (abspath cwd path) = true

/-- C2: once the containment check passes and the file exists, the read
fails with the too-large error exactly when the file size strictly
exceeds `MAX_ATTACHMENT_MB * 1024 * 1024` bytes; at or below the limit
it returns the full content; above the limit the outcome is the
too-large error for every content the file might have (the size is
checked before any content is read); the limit is 20 MiB by default and
follows the environment variable when it parses. -/
theorem C2_size_limit :
    (∀ (env : EnvT) (cwd : Str) (fs : Fs) (path baseDir : Str) (m : Nat)
        (f : FileData),
      maxMbOf env = some m →
      sandboxPasses cwd path baseDir →
      fs (abspath cwd path) = some f →
      ((safe_read_file env cwd fs path baseDir = .error .attachmentTooLarge ↔
          m * 1024 * 1024 < f.size) ∧
       (f.size ≤ m * 1024 * 1024 →
          safe_read_file env cwd fs path baseDir = .ok f.content) ∧
       (∀ content : List Nat, m * 1024 * 1024 < f.size →
          safe_read_file env cwd
              (fun q => if q = abspath cwd path then some ⟨f.size, content⟩
                else fs q) path baseDir = .error .attachmentTooLarge))) ∧
    maxMbOf emptyEnv = some 20 ∧
    (∀ (v : Str) (m : Nat), pyIntParse v = some m →
      maxMbOf (envWith ("MAX_ATTACHMENT_MB") v) = some m) := by
  refine ⟨fun env cwd fs path baseDir m f hmax hsb hfs => ?_, rfl,
    fun v m h => ?_⟩
  · have hcond : ¬ (baseDir ≠ [] ∧
        ¬ (abspath cwd path = abspath cwd baseDir ∨
          List.isPrefixOf (abspath cwd baseDir ++ [sepC])
            (abspath cwd path))) := by
      intro hc
      rcases hsb with h | h | h
      · exact hc.1 h
      · exact hc.2 (Or.inl h)
      · exact hc.2 (Or.inr h)
    refine ⟨?_, fun hle => ?_, fun content hgt => ?_⟩
    · rw [safe_read_file, if_neg hcond, hmax, hfs]
      by_cases hsz : m * 1024 * 1024 < f.size
      · simp [hsz]
      · simp [hsz]
    · rw [safe_read_file, if_neg hcond, hmax, hfs]
      have hns : ¬ (f.size > m * 1024 * 1024) := by omega
      simp [hns]
    · rw [safe_read_file, if_neg hcond, hmax]
      simp [hgt]
  · simpa [maxMbOf, envWith] using h

/-- Witness for C2: a file of exactly 20 MiB (the default limit) is
returned in full, and a file of 20 MiB + 1 byte fails with the
too-large error. -/
theorem C2_size_limit_witness :
    safe_read_file emptyEnv ("/".data)
        (fsWith ("/shared/a.txt".data) ⟨20971520, [7, 8]⟩)
        ("/shared/a.txt".data) ("/shared".data) = .ok [7, 8] ∧
    safe_read_file emptyEnv ("/".data)
        (fsWith ("/shared/a.txt".data) ⟨20971521, [7, 8]⟩)
        ("/shared/a.txt".data) ("/shared".data) =
      .error .attachmentTooLarge :=
  ⟨(C2_size_limit.1 emptyEnv ("/".data)
      (fsWith ("/shared/a.txt".data) ⟨20971520, [7, 8]⟩)
      ("/shared/a.txt".data) ("/shared".data) 20 ⟨20971520, [7, 8]⟩
      (by decide) (Or.inr (Or.inr (by decide))) (by decide)).2.1 (by decide),
   (C2_size_limit.1 emptyEnv ("/".data)
      (fsWith ("/shared/a.txt".data) ⟨20971521, [7, 8]⟩)
      ("/shared/a.txt".data) ("/shared".data) 20 ⟨20971521, [7, 8]⟩
      (by decide) (Or.inr (Or.inr (by decide))) (by decide)).1.mpr (by decide)⟩

/-! ## Claim C5: base64 decoding failures (corrected: non-alphabet
characters are discarded, so not every malformed input fails) -/

theorem b64charIndex_ascii (c : Char) (h : (b64charIndex c).isSome = true) :
    c.toNat < 128 := by
  unfold b64charIndex at h
  split at h
  · omega
  split at h
  · omega
  split at h
  · omega
  split at h
  · omega
  split at h
  · omega
  · simp at h

theorem b64charIndex_ne_pad (c : Char) (h : (b64charIndex c).isSome = true) :
    c ≠ '=' := by
  intro hc
  subst hc
  exact absurd h (by decide)

/-- On input consisting only of data-alphabet characters, the
`a2b_base64` loop (entered with zero pending pads) succeeds exactly when
the quad position works out to zero at the end. -/
theorem a2bLoop_alphabet_ok (s : List Char) :
    ∀ (q l : Nat) (acc : List Nat),
      (∀ c ∈ s, (b64charIndex c).isSome = true) → q < 4 →
      ((a2bBase64Loop s q l 0 acc).isOk = true ↔ (q + s.length) % 4 = 0) := by
  induction s with
  | nil =>
    intro q l acc _ hq
    interval_cases q <;> simp [a2bBase64Loop, Except.isOk, Except.toBool]
  | cons c rest ih =>
    intro q l acc hall hq
    have hc := hall c (List.mem_cons_self c rest)
    have hnp := b64charIndex_ne_pad c hc
    obtain ⟨v, hv⟩ := Option.isSome_iff_exists.mp hc
    have hrest : ∀ x ∈ rest, (b64charIndex x).isSome = true :=
      fun x hx => hall x (List.mem_cons_of_mem c hx)
    rw [a2bBase64Loop, if_neg hnp, hv]
    interval_cases q
    · rw [show ((0 : Nat) + (c :: rest).length) % 4 =
        (1 + rest.length) % 4 by simp; omega]
      exact ih 1 v acc hrest (by omega)
    · rw [show ((1 : Nat) + (c :: rest).length) % 4 =
        (2 + rest.length) % 4 by simp; omega]
      exact ih 2 (v % 16) _ hrest (by omega)
    · rw [show ((2 : Nat) + (c :: rest).length) % 4 =
        (3 + rest.length) % 4 by simp; omega]
      exact ih 3 (v % 4) _ hrest (by omega)
    · rw [show ((3 : Nat) + (c :: rest).length) % 4 =
        (0 + rest.length) % 4 by simp; omega]
      exact ih 0 0 _ hrest (by omega)

/-- C5 counterexample: `"!"` is not well-formed base64, yet
`base64.b64decode` discards the non-alphabet character and returns the
empty byte string, so resolution of a base64 attachment with this
malformed payload *succeeds* instead of failing with the
invalid-base64 error. -/
theorem C5_malformed_decodes_counterexample :
    b64Wellformed ("!".data) = false ∧
    pyB64Decode ("!".data) = .ok [] ∧
    resolveAttachment emptyEnv ("/".data) emptyFs noGuess
        ⟨some ("a.txt".data), none, some ("!".data), none⟩ =
      .ok ⟨"a.txt".data, "application/octet-stream".data, []⟩ := by
  decide

/-- C5 (amended): for a base64 attachment whose payload consists only of
data-alphabet characters, resolution fails with the invalid-base64
error exactly when the payload length is not a multiple of four;
malformed characters outside the alphabet are discarded by the decoder
rather than rejected. -/
theorem C5_alphabet_decode_iff (env : EnvT) (cwd : Str) (fs : Fs)
    (guess : Str → Option Str) (fname mt : Option Str) (c : Str)
    (hall : ∀ ch ∈ c, (b64charIndex ch).isSome = true)
    (hne : c ≠ []) (hfn : truthy fname = true) :
    resolveAttachment env cwd fs guess ⟨fname, mt, some c, none⟩ =
        .error .invalidBase64 ↔ c.length % 4 ≠ 0 := by
  have htc : truthy (some c) = true := by simp [truthy, hne]
  have hascii : c.all (fun ch => ch.toNat < 128) = true := by
    rw [List.all_eq_true]
    intro ch hch
    exact decide_eq_true (b64charIndex_ascii ch (hall ch hch))
  have hloop := a2bLoop_alphabet_ok c 0 0 [] hall (by omega)
  simp only [resolveAttachment, htc, truthy, resolveBase64Branch, hfn, getS]
  simp only [Bool.true_and, Bool.false_eq_true, if_false, if_true,
    Bool.true_eq_false]
  have hpy : pyB64Decode c = a2bBase64Loop c 0 0 0 [] := by
    rw [pyB64Decode, if_pos hascii]
  rw [hpy]
  have hfn2 := hfn
  simp only [truthy, ne_eq, decide_not] at hfn2
  rcases hres : a2bBase64Loop c 0 0 0 [] with e | out <;> rw [hres] at hloop
  · simp only [Except.isOk, Except.toBool, Bool.false_eq_true, false_iff]
      at hloop
    simp only [Nat.zero_add] at hloop
    simp [hloop, hne, hfn2]
  · simp only [Except.isOk, Except.toBool, true_iff] at hloop
    simp only [Nat.zero_add] at hloop
    simp [hloop, hne, hfn2]

/-- Witness for C5 (amended): the alphabet-only payload `"abc"` (length
3) fails with the invalid-base64 error, and `"QUJD"` (length 4) does
not. -/
theorem C5_alphabet_decode_iff_witness :
    resolveAttachment emptyEnv ("/".data) emptyFs noGuess
        ⟨some ("a.txt".data), none, some ("abc".data), none⟩ =
      .error .invalidBase64 ∧
    resolveAttachment emptyEnv ("/".data) emptyFs noGuess
        ⟨some ("a.txt".data), none, some ("QUJD".data), none⟩ ≠
      .error .invalidBase64 :=
  ⟨(C5_alphabet_decode_iff emptyEnv ("/".data) emptyFs noGuess
      (some ("a.txt".data)) none ("abc".data) (by decide) (by decide)
      (by decide)).mpr (by decide),
   fun h =>
    absurd ((C5_alphabet_decode_iff emptyEnv ("/".data) emptyFs noGuess
      (some ("a.txt".data)) none ("QUJD".data) (by decide) (by decide)
      (by decide)).mp h) (by decide)⟩

/-! ## Claim C8: round trip of an inline attachment through the built
message -/

/-- The boundary used in the C8 round-trip computation (standing for the
generator's randomly drawn boundary). -/
def c8Boundary : Str := "===============1234567890==".data

/-- The single attachment of the C8 request:
`{filename: "a.txt", content_base64: base64("hello")}`. -/
def c8Spec : AttachmentSpec :=
  ⟨some ("a.txt".data), none, some ("aGVsbG8=".data), none⟩

/-- The encoded message built for the C8 request. -/
def c8Raw : Str :=
  (build_raw_email emptyEnv ("/".data) emptyFs mimetypesGuess c8Boundary
    ("a@example.com".data) ("Hi".data) ("hi".data) ("plain".data)
    [c8Spec]).toOption.getD []

/-- The url-safe-base64 decoded bytes of the encoded message. -/
def c8Bytes : List Nat := (urlsafeB64Decode c8Raw).toOption.getD []

/-- The decoded message text. -/
def c8Msg : Str := c8Bytes.map Char.ofNat

/-- The attachment parts found when parsing the decoded message. -/
def c8AttParts : List Str :=
  (mimeParts c8Boundary c8Msg).filter isAttachmentPart

/-- The (single) attachment part of the decoded message. -/
def c8Part : Str := c8AttParts.headD []

/-- C8: for the request with one attachment `{filename: "a.txt",
content_base64: base64("hello")}`, building succeeds; url-safe-base64
decoding the result recovers the serialised message; parsing it yields
exactly one attachment part; that part's payload base64-decodes to the
bytes of `"hello"`; and its content-disposition filename is `"a.txt"`. -/
theorem C8_attachment_roundtrip :
    build_raw_email emptyEnv ("/".data) emptyFs mimetypesGuess c8Boundary
        ("a@example.com".data) ("Hi".data) ("hi".data) ("plain".data)
        [c8Spec] = .ok c8Raw ∧
    urlsafeB64Decode c8Raw = .ok (strBytes c8Msg) ∧
    c8AttParts = [c8Part] ∧
    pyB64Decode (partPayload c8Part) = .ok (strBytes ("hello".data)) ∧
    dispFilename c8Part = some ("a.txt".data) := by
  decide

/-! ## Claim C1: path-containment characterisation.

The code's check is string-level (`p == b or p.startswith(b + os.sep)`
on canonicalised paths); the spec speaks of equality or proper descent.
The lemmas below relate the string test to the structural
proper-descendant relation on canonicalised paths. -/

/-- A list of path components is clean: each non-empty and free of the
separator (true of every canonicalised absolute path). -/
def CleanL (cs : List Str) : Prop := ∀ c ∈ cs, c ≠ [] ∧ sepC ∉ c

theorem splitSep_ne_nil (s : Str) : splitSep s ≠ [] := by
  cases s with
  | nil => simp [splitSep]
  | cons c rest =>
    rw [splitSep]
    split
    · simp
    · cases h : splitSep rest <;> simp

theorem splitSep_no_sep (s : Str) : ∀ c ∈ splitSep s, sepC ∉ c := by
  induction s with
  | nil =>
    intro c hc
    simp [splitSep] at hc
    subst hc
    simp
  | cons c0 rest ih =>
    intro c hc
    by_cases h0 : c0 = sepC
    · rw [splitSep, if_pos h0] at hc
      rcases List.mem_cons.mp hc with h | h
      · subst h; simp
      · exact ih c h
    · rw [splitSep, if_neg h0] at hc
      rcases hsp : splitSep rest with _ | ⟨h1, t⟩
      · exact absurd hsp (splitSep_ne_nil rest)
      · rw [hsp] at hc
        rcases List.mem_cons.mp hc with h | h
        · subst h
          intro hmem
          rcases List.mem_cons.mp hmem with h | h
          · exact h0 h.symm
          · have := ih h1 (by rw [hsp]; exact List.mem_cons_self _ _)
            exact this h
        · exact ih c (by rw [hsp]; exact List.mem_cons_of_mem _ h)

theorem normComps_clean (flag : Bool) (l : List Str) :
    ∀ acc : List Str, (∀ c ∈ l, sepC ∉ c) →
      (∀ c ∈ acc, c ≠ [] ∧ sepC ∉ c) →
      ∀ c ∈ normComps flag l acc, c ≠ [] ∧ sepC ∉ c := by
  induction l with
  | nil => intro acc _ hacc c hc; exact hacc c hc
  | cons comp rest ih =>
    intro acc hl hacc c hc
    have hrest : ∀ c ∈ rest, sepC ∉ c :=
      fun x hx => hl x (List.mem_cons_of_mem _ hx)
    by_cases h1 : comp = [] ∨ comp = ['.']
    · rw [normComps, if_pos h1] at hc
      exact ih acc hrest hacc c hc
    · rw [normComps, if_neg h1] at hc
      by_cases h2 : comp ≠ ['.', '.'] ∨ (flag = false ∧ acc = []) ∨
          acc.getLast? = some ['.', '.']
      · rw [if_pos h2] at hc
        refine ih _ hrest ?_ c hc
        intro x hx
        rcases List.mem_append.mp hx with h | h
        · exact hacc x h
        · have hx2 : x = comp := by simpa using h
          subst hx2
          push_neg at h1
          exact ⟨h1.1, hl x (List.mem_cons_self _ _)⟩
      · rw [if_neg h2] at hc
        exact ih _ hrest
          (fun x hx => hacc x (List.mem_of_mem_dropLast hx)) c hc

theorem initialSlashes_absolute (s : Str) (h : isabs s = true) :
    initialSlashes s = 1 ∨ initialSlashes s = 2 := by
  have h1 : s.take 1 = [sepC] := of_decide_eq_true h
  unfold initialSlashes
  rw [if_pos h1]
  split
  · exact Or.inr rfl
  · exact Or.inl rfl

theorem wf_normStruct (s : Str) (h : isabs s = true) : WfN (normStruct s) := by
  refine ⟨?_, ?_⟩
  · exact initialSlashes_absolute s h
  · exact normComps_clean _ _ [] (splitSep_no_sep s) (by simp)

theorem isabs_cons (s : Str) (h : isabs s = true) :
    ∃ t, s = sepC :: t := by
  have h1 : s.take 1 = [sepC] := of_decide_eq_true h
  cases s with
  | nil => simp at h1
  | cons c t =>
    simp at h1
    exact ⟨t, by rw [h1]⟩

theorem isabs_joinP (cwd s : Str) (h : isabs cwd = true) :
    isabs (joinP cwd s) = true := by
  obtain ⟨t, ht⟩ := isabs_cons cwd h
  unfold joinP
  split
  · assumption
  · split <;> (subst ht; simp [isabs])

theorem wf_absStruct (cwd s : Str) (h : isabs cwd = true) :
    WfN (absStruct cwd s) := by
  unfold absStruct
  split
  · exact wf_normStruct s (by assumption)
  · exact wf_normStruct _ (isabs_joinP cwd s h)

theorem abspath_renderN (cwd s : Str) :
    abspath cwd s = renderN (absStruct cwd s) := by
  unfold abspath absStruct normpath
  split <;> rfl

theorem sep_split_inj {x : Str} : ∀ {y t u : Str}, sepC ∉ x → sepC ∉ y →
    x ++ sepC :: t = y ++ sepC :: u → x = y ∧ t = u := by
  induction x with
  | nil =>
    intro y t u _ hy h
    cases y with
    | nil => simpa using h
    | cons b y' =>
      simp only [List.nil_append, List.cons_append, List.cons.injEq] at h
      exact absurd (h.1 ▸ List.mem_cons_self b y') hy
  | cons a x' ih =>
    intro y t u hx hy h
    cases y with
    | nil =>
      simp only [List.cons_append, List.nil_append, List.cons.injEq] at h
      exact absurd (h.1 ▸ List.mem_cons_self a x') hx
    | cons b y' =>
      simp only [List.cons_append, List.cons.injEq] at h
      obtain ⟨h1, h2⟩ := h
      have hx' : sepC ∉ x' := fun hm => hx (List.mem_cons_of_mem _ hm)
      have hy' : sepC ∉ y' := fun hm => hy (List.mem_cons_of_mem _ hm)
      obtain ⟨h3, h4⟩ := ih hx' hy' h2
      exact ⟨by rw [h1, h3], h4⟩

theorem prefix_sep_sep {x y t u : Str} (hx : sepC ∉ x) (hy : sepC ∉ y) :
    x ++ sepC :: t <+: y ++ sepC :: u ↔ x = y ∧ t <+: u := by
  constructor
  · rintro ⟨r, hr⟩
    rw [List.append_assoc, List.cons_append] at hr
    obtain ⟨hxy, htu⟩ := sep_split_inj hx hy hr
    exact ⟨hxy, ⟨r, htu⟩⟩
  · rintro ⟨rfl, ⟨r, hr⟩⟩
    exact ⟨r, by rw [List.append_assoc, List.cons_append, hr]⟩

theorem not_prefix_into_no_sep {x t y : Str} (hy : sepC ∉ y) :
    ¬ (x ++ sepC :: t <+: y) := by
  intro h
  exact hy (h.sublist.subset (by simp))

theorem interS_cons_cons (c d : Str) (cs : List Str) :
    interS (c :: d :: cs) = c ++ sepC :: interS (d :: cs) := rfl

theorem interS_ne_nil {cs : List Str} (hc : CleanL cs) (hne : cs ≠ []) :
    interS cs ≠ [] := by
  match cs with
  | [] => exact absurd rfl hne
  | [c] => exact (hc c (List.mem_cons_self _ _)).1
  | c :: d :: cs' => rw [interS_cons_cons]; simp

theorem interS_head_not_sep {cs : List Str} (hc : CleanL cs) :
    ∀ ch, (interS cs).head? = some ch → ch ≠ sepC := by
  match cs with
  | [] => intro ch h; simp [interS] at h
  | [c] =>
    intro ch h
    have hcc := hc c (List.mem_cons_self _ _)
    intro hs
    subst hs
    exact hcc.2 (List.mem_of_mem_head? (by simpa [interS] using h))
  | c :: d :: cs' =>
    intro ch h
    have hcc := hc c (List.mem_cons_self _ _)
    rw [interS_cons_cons] at h
    cases hcv : c with
    | nil => exact absurd hcv hcc.1
    | cons c0 ct =>
      rw [hcv] at h
      simp only [List.cons_append, List.head?_cons, Option.some.injEq] at h
      subst h
      intro hs
      exact hcc.2 (hcv ▸ (hs ▸ List.mem_cons_self _ _))

theorem interS_prefix_iff (cb : List Str) :
    ∀ ca : List Str, CleanL cb → CleanL ca → cb ≠ [] →
      (interS cb ++ [sepC] <+: interS ca ↔ cb <+: ca ∧ cb ≠ ca) := by
  induction cb with
  | nil => intro ca _ _ hne; exact absurd rfl hne
  | cons c cb' ih =>
    intro ca hcb hca _
    have hc := hcb c (List.mem_cons_self _ _)
    have hcb' : CleanL cb' := fun x hx => hcb x (List.mem_cons_of_mem _ hx)
    cases cb' with
    | nil =>
      cases ca with
      | nil =>
        simp only [interS]
        constructor
        · intro h
          have := h.length_le
          simp at this
        · rintro ⟨h, _⟩
          exact absurd (List.prefix_nil.mp h) (by simp)
      | cons c' ca' =>
        have hc' := hca c' (List.mem_cons_self _ _)
        have hca' : CleanL ca' := fun x hx => hca x (List.mem_cons_of_mem _ hx)
        cases ca' with
        | nil =>
          constructor
          · intro h
            rw [show interS [c] ++ [sepC] = c ++ sepC :: ([] : Str) from rfl]
              at h
            exact absurd h (not_prefix_into_no_sep hc'.2)
          · rintro ⟨hpre, hne⟩
            obtain ⟨heq, -⟩ := List.cons_prefix_cons.mp hpre
            exact absurd (by rw [heq]) hne
        | cons c'' ca'' =>
          rw [interS_cons_cons,
            show interS [c] ++ [sepC] = c ++ sepC :: ([] : Str) from rfl,
            prefix_sep_sep hc.2 hc'.2]
          constructor
          · rintro ⟨rfl, -⟩
            exact ⟨List.cons_prefix_cons.mpr ⟨rfl, List.nil_prefix⟩, by simp⟩
          · rintro ⟨hpre, -⟩
            exact ⟨(List.cons_prefix_cons.mp hpre).1, List.nil_prefix⟩
    | cons d cb'' =>
      rw [interS_cons_cons, List.append_assoc, List.cons_append]
      cases ca with
      | nil =>
        simp only [interS]
        constructor
        · intro h
          have := h.length_le
          simp at this
        · rintro ⟨h, -⟩
          exact absurd (List.prefix_nil.mp h) (by simp)
      | cons c' ca' =>
        have hc' := hca c' (List.mem_cons_self _ _)
        have hca' : CleanL ca' := fun x hx => hca x (List.mem_cons_of_mem _ hx)
        cases ca' with
        | nil =>
          constructor
          · intro h
            exact absurd h (not_prefix_into_no_sep hc'.2)
          · rintro ⟨hpre, -⟩
            obtain ⟨-, h2⟩ := List.cons_prefix_cons.mp hpre
            exact absurd (List.prefix_nil.mp h2) (by simp)
        | cons c'' ca'' =>
          rw [interS_cons_cons, prefix_sep_sep hc.2 hc'.2,
            ih (c'' :: ca'') hcb' hca' (by simp)]
          constructor
          · rintro ⟨rfl, hpre, hne⟩
            refine ⟨List.cons_prefix_cons.mpr ⟨rfl, hpre⟩, ?_⟩
            intro heq
            rw [List.cons.injEq] at heq
            exact hne heq.2
          · rintro ⟨hpre, hne⟩
            obtain ⟨h1, h2⟩ := List.cons_prefix_cons.mp hpre
            refine ⟨h1, h2, ?_⟩
            intro heq
            exact hne (by rw [h1, heq])

theorem interS_inj (cb : List Str) :
    ∀ ca : List Str, CleanL cb → CleanL ca →
      (interS cb = interS ca ↔ cb = ca) := by
  induction cb with
  | nil =>
    intro ca _ hca
    cases ca with
    | nil => simp
    | cons c' ca' =>
      constructor
      · intro h
        exact absurd h.symm (interS_ne_nil hca (by simp))
      · intro h
        simp at h
  | cons c cb' ih =>
    intro ca hcb hca
    have hc := hcb c (List.mem_cons_self _ _)
    have hcb' : CleanL cb' := fun x hx => hcb x (List.mem_cons_of_mem _ hx)
    cases ca with
    | nil =>
      constructor
      · intro h
        exact absurd h (interS_ne_nil hcb (by simp))
      · intro h
        simp at h
    | cons c' ca' =>
      have hc' := hca c' (List.mem_cons_self _ _)
      have hca' : CleanL ca' := fun x hx => hca x (List.mem_cons_of_mem _ hx)
      cases cb' with
      | nil =>
        cases ca' with
        | nil => simp [interS]
        | cons c'' ca'' =>
          rw [interS_cons_cons]
          constructor
          · intro h
            exfalso
            have : sepC ∈ c := by rw [show interS [c] = c from rfl] at h
                                  rw [h]; simp
            exact hc.2 this
          · intro h
            simp at h
      | cons d cb'' =>
        cases ca' with
        | nil =>
          rw [interS_cons_cons]
          constructor
          · intro h
            exfalso
            have : sepC ∈ c' := by
              rw [show interS [c'] = c' from rfl] at h
              rw [← h]; simp
            exact hc'.2 this
          · intro h
            simp at h
        | cons c'' ca'' =>
          rw [interS_cons_cons, interS_cons_cons]
          constructor
          · intro h
            obtain ⟨h1, h2⟩ := sep_split_inj hc.2 hc'.2 h
            have h3 := (ih (c'' :: ca'') hcb' hca').mp h2
            rw [h1, h3]
          · intro h
            rw [List.cons.injEq] at h
            rw [h.1, h.2]

theorem repl_peel (j : Nat) : ∀ (k : Nat) (X Y : Str),
    X ≠ [] → (∀ ch, X.head? = some ch → ch ≠ sepC) →
    (∀ ch, Y.head? = some ch → ch ≠ sepC) →
    (List.replicate j sepC ++ X <+: List.replicate k sepC ++ Y ↔
      j = k ∧ X <+: Y) := by
  induction j with
  | zero =>
    intro k X Y hne hX hY
    cases k with
    | zero => simp
    | succ k' =>
      rw [List.replicate_succ]
      simp only [List.replicate_zero, List.nil_append, List.cons_append]
      constructor
      · intro h
        cases X with
        | nil => exact absurd rfl hne
        | cons x xs =>
          exact absurd (List.cons_prefix_cons.mp h).1 (hX x rfl)
      · rintro ⟨h, -⟩
        omega
  | succ j' ih =>
    intro k X Y hne hX hY
    cases k with
    | zero =>
      rw [List.replicate_succ]
      simp only [List.replicate_zero, List.nil_append, List.cons_append]
      constructor
      · intro h
        cases Y with
        | nil =>
          have := h.length_le
          simp at this
        | cons y ys =>
          exact absurd (List.cons_prefix_cons.mp h).1.symm (hY y rfl)
      · rintro ⟨h, -⟩
        omega
    | succ k' =>
      rw [List.replicate_succ, List.replicate_succ]
      simp only [List.cons_append]
      rw [List.cons_prefix_cons]
      rw [ih k' X Y hne hX hY]
      constructor
      · rintro ⟨-, h, hp⟩
        exact ⟨by omega, hp⟩
      · rintro ⟨h, hp⟩
        exact ⟨rfl, by omega, hp⟩

theorem repl_peel_eq (j : Nat) : ∀ (k : Nat) (X Y : Str),
    (∀ ch, X.head? = some ch → ch ≠ sepC) →
    (∀ ch, Y.head? = some ch → ch ≠ sepC) →
    (List.replicate j sepC ++ X = List.replicate k sepC ++ Y ↔
      j = k ∧ X = Y) := by
  induction j with
  | zero =>
    intro k X Y hX hY
    cases k with
    | zero => simp
    | succ k' =>
      rw [List.replicate_succ]
      simp only [List.replicate_zero, List.nil_append, List.cons_append]
      constructor
      · intro h
        cases X with
        | nil => simp at h
        | cons x xs =>
          rw [List.cons.injEq] at h
          exact absurd h.1 (hX x rfl)
      · rintro ⟨h, -⟩
        omega
  | succ j' ih =>
    intro k X Y hX hY
    cases k with
    | zero =>
      rw [List.replicate_succ]
      simp only [List.replicate_zero, List.nil_append, List.cons_append]
      constructor
      · intro h
        cases Y with
        | nil => simp at h
        | cons y ys =>
          rw [List.cons.injEq] at h
          exact absurd h.1.symm (hY y rfl)
      · rintro ⟨h, -⟩
        omega
    | succ k' =>
      rw [List.replicate_succ, List.replicate_succ]
      simp only [List.cons_append]
      rw [List.cons.injEq]
      rw [ih k' X Y hX hY]
      constructor
      · rintro ⟨-, h, hp⟩
        exact ⟨by omega, hp⟩
      · rintro ⟨h, hp⟩
        exact ⟨rfl, by omega, hp⟩

theorem renderN_wf (n : NPath) (h : WfN n) :
    renderN n = List.replicate n.slashes sepC ++ interS n.comps := by
  unfold renderN
  apply if_neg
  intro habs
  have h1 : List.replicate n.slashes sepC = [] :=
    (List.append_eq_nil.mp habs).1
  have h2 : n.slashes = 0 := by simpa using h1
  rcases h.1 with h3 | h3 <;> omega

theorem renderN_inj {a b : NPath} (ha : WfN a) (hb : WfN b) :
    renderN a = renderN b ↔ a = b := by
  rw [renderN_wf a ha, renderN_wf b hb]
  rw [repl_peel_eq a.slashes b.slashes _ _
    (interS_head_not_sep ha.2) (interS_head_not_sep hb.2)]
  rw [interS_inj a.comps b.comps ha.2 hb.2]
  constructor
  · rintro ⟨h1, h2⟩
    cases a; cases b
    simp_all
  · rintro rfl
    exact ⟨rfl, rfl⟩

theorem renderN_prefix_iff {a b : NPath} (ha : WfN a) (hb : WfN b)
    (hbc : b.comps ≠ []) :
    renderN b ++ [sepC] <+: renderN a ↔ ProperDescendant b a := by
  rw [renderN_wf a ha, renderN_wf b hb, List.append_assoc]
  have hXne : interS b.comps ++ [sepC] ≠ [] := by simp
  have hXhead : ∀ ch, (interS b.comps ++ [sepC]).head? = some ch →
      ch ≠ sepC := by
    intro ch hch
    have hne := interS_ne_nil hb.2 hbc
    cases hcv : interS b.comps with
    | nil => exact absurd hcv hne
    | cons c0 ct =>
      rw [hcv] at hch
      simp only [List.cons_append, List.head?_cons, Option.some.injEq] at hch
      subst hch
      exact interS_head_not_sep hb.2 c0 (by rw [hcv]; rfl)
  rw [repl_peel b.slashes a.slashes _ _ hXne hXhead
    (interS_head_not_sep ha.2)]
  rw [interS_prefix_iff b.comps a.comps hb.2 ha.2 hbc]
  exact Iff.rfl

/-- Only the containment check produces the path-escape error: the read
is the path-escape failure iff the base dir is truthy and the
string-level check fails. -/
theorem safe_read_file_pathEscape_iff (env : EnvT) (cwd : Str) (fs : Fs)
    (path baseDir : Str) :
    isPathEscape (safe_read_file env cwd fs path baseDir) ↔
      (baseDir ≠ [] ∧
        ¬ (abspath cwd path = abspath cwd baseDir ∨
          List.isPrefixOf (abspath cwd baseDir ++ [sepC])
            (abspath cwd path) = true)) := by
  unfold safe_read_file
  by_cases hcond : baseDir ≠ [] ∧
      ¬ (abspath cwd path = abspath cwd baseDir ∨
        List.isPrefixOf (abspath cwd baseDir ++ [sepC])
          (abspath cwd path) = true)
  · rw [if_pos hcond]
    exact iff_of_true rfl hcond
  · rw [if_neg hcond]
    simp only [iff_false_intro hcond, iff_false]
    intro h
    rw [isPathEscape] at h
    cases hmx : maxMbOf env with
    | none => rw [hmx] at h; simp at h
    | some m =>
      rw [hmx] at h
      cases hfs : fs (abspath cwd path) with
      | none => rw [hfs] at h; simp at h
      | some f =>
        rw [hfs] at h
        dsimp only at h
        split at h <;> simp at h

/-- C1 (amended): for every absolute working directory, non-empty base
directory whose canonical form is not a bare filesystem root (it keeps
at least one component), the sandboxed read fails with the path-escape
error exactly when the canonical form of the path is neither equal to
nor a proper descendant of the canonical form of the base directory;
and in particular the relative path `../../etc/passwd`, resolved by
`_resolve_attachment_path` under the default base dir `/shared`, fails
with the path-escape error. -/
theorem C1_containment_iff :
    (∀ (env : EnvT) (cwd path baseDir : Str) (fs : Fs),
      isabs cwd = true → baseDir ≠ [] →
      (absStruct cwd baseDir).comps ≠ [] →
      (isPathEscape (safe_read_file env cwd fs path baseDir) ↔
        ¬ (absStruct cwd path = absStruct cwd baseDir ∨
          ProperDescendant (absStruct cwd baseDir) (absStruct cwd path)))) ∧
    isPathEscape (safe_read_file emptyEnv ("/".data) emptyFs
      (resolve_attachment_path emptyEnv ("../../etc/passwd".data))
      ("/shared".data)) := by
  refine ⟨fun env cwd path baseDir fs hcwd hb hroot => ?_, by decide⟩
  have hwa := wf_absStruct cwd path hcwd
  have hwb := wf_absStruct cwd baseDir hcwd
  have heq : (abspath cwd path = abspath cwd baseDir) ↔
      absStruct cwd path = absStruct cwd baseDir := by
    rw [abspath_renderN, abspath_renderN]
    exact renderN_inj hwa hwb
  have hpre : (List.isPrefixOf (abspath cwd baseDir ++ [sepC])
      (abspath cwd path) = true) ↔
      ProperDescendant (absStruct cwd baseDir) (absStruct cwd path) := by
    rw [List.isPrefixOf_iff_prefix, abspath_renderN, abspath_renderN]
    exact renderN_prefix_iff hwa hwb hroot
  rw [safe_read_file_pathEscape_iff, heq, hpre]
  simp [hb]

/-- Witness for C1 (amended) at concrete inputs: `/etc/passwd` against
base `/shared` is neither equal to nor a descendant of the base, and
the read is the path-escape failure. -/
theorem C1_containment_iff_witness :
    isPathEscape (safe_read_file emptyEnv ("/".data) emptyFs
        ("/etc/passwd".data) ("/shared".data)) ↔
      ¬ (absStruct ("/".data) ("/etc/passwd".data) =
          absStruct ("/".data) ("/shared".data) ∨
        ProperDescendant (absStruct ("/".data) ("/shared".data))
          (absStruct ("/".data) ("/etc/passwd".data))) :=
  C1_containment_iff.1 emptyEnv ("/".data) ("/etc/passwd".data)
    ("/shared".data) emptyFs (by decide) (by decide) (by decide)

/-- C1 counterexample: for the base directory `/` (a bare filesystem
root), `/etc` is a proper descendant of the canonical base, yet the
read fails with the path-escape error, because the code's descent test
appends `os.sep` to the base (`"//"` is never a prefix of a normal
path). -/
theorem C1_root_base_counterexample :
    ProperDescendant (absStruct ("/".data) ("/".data))
        (absStruct ("/".data) ("/etc".data)) ∧
    isPathEscape (safe_read_file emptyEnv ("/".data) emptyFs
      ("/etc".data) ("/".data)) := by
  decide
